import Mathlib

/-!
Verification of the depth-extraction core of the ZED SVO2 extractor
(`src/common/extraction_engine.cpp` / `.hpp`).

The C++ code is shallowly embedded:
 - a 32-bit float depth sample becomes `DVal` (a rational value, or one of
   the IEEE non-finite values NaN / +inf / -inf); float arithmetic is
   modelled by exact rational arithmetic with IEEE rules for the
   non-finite values;
 - a `cv::Mat` becomes a flat `List` of pixels in row-major scan order
   (all operations of the embedded code are either pointwise, global
   reductions, or opaque OpenCV library calls);
 - OpenCV library primitives that are external to the repository
   (`cv::log`, Sobel/normalize, CLAHE, the color-map lookup tables,
   `addWeighted`, `resize`, ...) are parameters of the model, bundled in
   `ExtOps` / `EngOps`: every theorem holds for every behaviour of these
   externals (with stated shape-preservation facts where OpenCV
   guarantees them);
 - the filesystem becomes an association list from path strings to file
   payloads; the ZED SDK camera becomes an explicit record of the
   outcomes it produces (open result, per-grab results, retrieved
   measures).
-/

set_option maxHeartbeats 1000000
set_option maxRecDepth 100000

namespace ZedSvo

/-! ## IEEE-style depth samples

`applyDepthHeatmap` receives a `CV_32FC1` matrix whose entries may be
NaN or infinite (the SDK uses them for unmeasured pixels). -/

/-- Value of one 32-bit float depth sample: a finite rational, or one of
the non-finite IEEE values. -/
inductive DVal where
  | nan
  | posInf
  | negInf
  | val (q : ℚ)
deriving DecidableEq, Repr

namespace DVal

/-- Elementwise `d >= c` against a finite scalar (`cv::Mat >= scalar`);
NaN compares false. -/
def geC : DVal → ℚ → Bool
  | nan, _ => false
  | posInf, _ => true
  | negInf, _ => false
  | val q, c => decide (c ≤ q)

/-- Elementwise `d <= c`; NaN compares false. -/
def leC : DVal → ℚ → Bool
  | nan, _ => false
  | posInf, _ => false
  | negInf, _ => true
  | val q, c => decide (q ≤ c)

/-- Elementwise `d > c`; NaN compares false. -/
def gtC : DVal → ℚ → Bool
  | nan, _ => false
  | posInf, _ => true
  | negInf, _ => false
  | val q, c => decide (c < q)

/-- Elementwise `d < c`; NaN compares false. -/
def ltC : DVal → ℚ → Bool
  | nan, _ => false
  | posInf, _ => false
  | negInf, _ => true
  | val q, c => decide (q < c)

/-- Elementwise `d == d` (the NaN test `depthFloat == depthFloat`). -/
def eqSelf : DVal → Bool
  | nan => false
  | _ => true

/-- `d + c` for a finite scalar `c`. -/
def addC : DVal → ℚ → DVal
  | nan, _ => nan
  | posInf, _ => posInf
  | negInf, _ => negInf
  | val q, c => val (q + c)

/-- `d - c` for a finite scalar `c`. -/
def subC : DVal → ℚ → DVal
  | nan, _ => nan
  | posInf, _ => posInf
  | negInf, _ => negInf
  | val q, c => val (q - c)

/-- `d / c` for a finite scalar `c`, with the IEEE conventions for
division by zero and signed infinities. -/
def divC : DVal → ℚ → DVal
  | nan, _ => nan
  | posInf, c => if c < 0 then negInf else posInf
  | negInf, c => if c < 0 then posInf else negInf
  | val q, c =>
      if c = 0 then (if q = 0 then nan else if 0 < q then posInf else negInf)
      else val (q / c)

/-- `d * c` for a finite scalar `c` (IEEE: `inf * 0 = NaN`). -/
def mulC : DVal → ℚ → DVal
  | nan, _ => nan
  | posInf, c => if c = 0 then nan else if c < 0 then negInf else posInf
  | negInf, c => if c = 0 then nan else if c < 0 then posInf else negInf
  | val q, c => val (q * c)

/-- `1 - d` (the near-is-hot inversion `scaled = 1.0 - scaled`). -/
def oneSub : DVal → DVal
  | nan => nan
  | posInf => negInf
  | negInf => posInf
  | val q => val (1 - q)

/-- Elementwise addition of two samples (IEEE: NaN propagates,
`inf + (-inf) = NaN`). -/
def addD : DVal → DVal → DVal
  | nan, _ => nan
  | _, nan => nan
  | posInf, negInf => nan
  | negInf, posInf => nan
  | posInf, _ => posInf
  | _, posInf => posInf
  | negInf, _ => negInf
  | _, negInf => negInf
  | val a, val b => val (a + b)

/-- `cv::min(d, 1.0)`. -/
def minOne : DVal → DVal
  | nan => nan
  | posInf => val 1
  | negInf => negInf
  | val q => val (min q 1)

/-- `convertTo(CV_8UC1, 255.0)`: saturating cast of `255 * d` to a byte
(OpenCV saturates NaN to 0). -/
def toByte : DVal → ℕ
  | nan => 0
  | posInf => 255
  | negInf => 0
  | val q => (min 255 (max 0 (round (255 * q)))).toNat

/-- Payload of a finite sample (junk 0 on non-finite values; only read
under the validity mask, which excludes them). -/
def toQ : DVal → ℚ
  | val q => q
  | _ => 0

end DVal

/-! ## Validity masking (`applyDepthHeatmap`, lines 790-801)

`maskValidBase = (d >= min) & (d <= max) & (d == d) & (d > 0)`;
an optional confidence mask is AND-combined, with the minimum-valid-pixel
floor `max(1000, totalPixels/1000)` falling back to the base mask. -/

/-- Base validity of one pixel
(`(depthFloat >= minDepth) & (depthFloat <= maxDepth) &
(depthFloat == depthFloat) & (depthFloat > 0)`). -/
def maskValidBase (minD maxD : ℚ) (d : DVal) : Bool :=
  d.geC minD && d.leC maxD && d.eqSelf && d.gtC 0

/-- The combined validity mask of `applyDepthHeatmap`: base mask, AND-ed
with `confidence <= confidenceThreshold` when a confidence frame is
supplied, relaxed back to the base mask when fewer than
`max(1000, totalPixels/1000)` pixels survive. -/
def combinedMask (depth : List DVal) (conf : Option (List ℚ))
    (minD maxD : ℚ) (thr : ℤ) : List Bool :=
  let base := depth.map (maskValidBase minD maxD)
  match conf with
  | none => base
  | some cf =>
      let comb := List.zipWith (fun b c => b && decide (c ≤ (thr : ℚ))) base cf
      let validCount := comb.count true
      let minValid := max 1000 (depth.length / 1000)
      if validCount < minValid then base else comb

/-! ## Auto-contrast percentile bounds (lines 803-829) -/

/-- Floor of a rational, computed directly on the reduced fraction so
that it evaluates by kernel reduction. -/
def ratFloor (q : ℚ) : ℤ := Int.fdiv q.num q.den

/-- Ceiling of a rational. -/
def ratCeil (q : ℚ) : ℤ := -ratFloor (-q)

/-- Insert into a sorted list (ascending). -/
def insertSorted (x : ℚ) : List ℚ → List ℚ
  | [] => [x]
  | y :: ys => if x ≤ y then x :: y :: ys else y :: insertSorted x ys

/-- Insertion sort; the multiset-ordering contract of `std::nth_element`
selection is modelled by full sorting. -/
def sortQ (l : List ℚ) : List ℚ := l.foldr insertSorted []

/-- The valid depth values, collected in row-major scan order
(the double loop pushing `row[x]` where `mrow[x]` is set). -/
def validVals (depth : List DVal) (mask : List Bool) : List ℚ :=
  (List.zip depth mask).filterMap (fun p => if p.2 then some p.1.toQ else none)

/-- `nth_pct`: the element at zero-based index
`size_t(pct * (n - 1))` of the sorted values (the `static_cast<size_t>`
truncates, i.e. floors). -/
def nthPctVal (vals : List ℚ) (pct : ℚ) : ℚ :=
  (sortQ vals).getD (ratFloor (pct * ((vals.length - 1 : ℕ) : ℚ))).toNat 0

/-- Effective bounds `(a, b)` of `applyDepthHeatmap`: percentile
stretching only when auto-contrast is on, strictly more than 100 valid
samples exist (`vals.size() > 100`), and `p98 - p2 > 0.5`. -/
def effectiveBounds (depth : List DVal) (mask : List Bool)
    (minD maxD : ℚ) (autoContrast : Bool) : ℚ × ℚ :=
  if autoContrast then
    let vals := validVals depth mask
    if 100 < vals.length then
      let p2 := nthPctVal vals (2 / 100)
      let p98 := nthPctVal vals (98 / 100)
      if 1 / 2 < p98 - p2 then (p2, p98) else (minD, maxD)
    else (minD, maxD)
  else (minD, maxD)

/-! ## Color maps (`resolveColorMap`, lines 759-773) -/

/-- The closed set of OpenCV color maps the engine can select
(`CV_COLORMAP_TURBO` is assumed available, as on OpenCV >= 4.1). -/
inductive CvColorMap where
  | turbo
  | viridis
  | plasma
  | jet
deriving DecidableEq, Repr

/-- `std::transform(..., ::tolower)` on the map name. -/
def lowerStr (s : String) : String := String.mk (s.data.map Char.toLower)

/-- `resolveColorMap`: case-insensitive name lookup, defaulting to
Turbo on unrecognized names. -/
def resolveColorMap (name : String) : CvColorMap :=
  let n := lowerStr name
  if n = "turbo" then .turbo
  else if n = "viridis" then .viridis
  else if n = "plasma" then .plasma
  else if n = "jet" then .jet
  else .turbo

/-- A BGR 8-bit pixel. -/
abbrev Pix : Type := ℕ × ℕ × ℕ

/-- A BGR 8-bit image, as a flat row-major pixel list. -/
abbrev Image : Type := List Pix

/-- OpenCV primitives used by `applyDepthHeatmap` that are external
library code: elementwise `cv::log`, host `std::log`, the whole
Sobel/magnitude/normalize chain, CLAHE, and the color-map lookup
table applied to one byte. -/
structure ExtOps where
  lnM : DVal → DVal
  lnS : ℚ → ℚ
  gradNorm : List DVal → List DVal
  clahe : List ℕ → List ℕ
  cmapLut : CvColorMap → ℕ → Pix

/-- A concrete instantiation of the external OpenCV primitives, used to
evaluate the model on concrete inputs. -/
def idOps : ExtOps where
  lnM := fun d => d
  lnS := fun q => q
  gradNorm := fun l => l.map (fun _ => DVal.val 0)
  clahe := fun l => l
  cmapLut := fun _ v => (v, v, v)

/-! ## The visualization transform (`applyDepthHeatmap`, lines 775-873) -/

/-- The elementwise scaling of the depth to `[0,1]`: linear
`(d - a) / (b - a)`, or logarithmic with epsilon `1e-3`. -/
def scaleStage (ext : ExtOps) (depth : List DVal) (a b : ℚ)
    (logScale : Bool) : List DVal :=
  if logScale then
    let logd := depth.map (fun d => ext.lnM (d.addC (1 / 1000)))
    let logA := ext.lnS (a + 1 / 1000)
    let logB := ext.lnS (b + 1 / 1000)
    logd.map (fun d => (d.subC logA).divC (logB - logA))
  else
    depth.map (fun d => (d.subC a).divC (b - a))

/-- `scaled.setTo(0, ~maskValid)`: zero the pixels rejected by the mask. -/
def maskZero (mask : List Bool) (s : List DVal) : List DVal :=
  List.zipWith (fun m v => if m then v else DVal.val 0) mask s

/-- `scaled.setTo(0, depthFloat < a); scaled.setTo(1, depthFloat > b)`. -/
def clampStage (depth s0 : List DVal) (a b : ℚ) : List DVal :=
  List.zipWith (fun d s => if d.gtC b then DVal.val 1 else s) depth
    (List.zipWith (fun d s => if d.ltC a then DVal.val 0 else s) depth s0)

/-- The optional edge boost: `min(scaled + factor * gradNorm, 1)` with
the mask re-applied; `gradNorm` is the external Sobel/normalize chain
on the raw depth. -/
def edgeStage (ext : ExtOps) (depth : List DVal) (mask : List Bool)
    (useEdgeBoost : Bool) (edgeBoostFactor : ℚ) (s4 : List DVal) : List DVal :=
  if useEdgeBoost then
    let gn := (ext.gradNorm depth).map (fun g => g.mulC edgeBoostFactor)
    maskZero mask ((List.zipWith DVal.addD s4 gn).map DVal.minOne)
  else s4

/-- The body of `applyDepthHeatmap` after the validity mask has been
computed: bounds, scaling, inversion, masking, edge boost, 8-bit
quantization, CLAHE, color map, and the final forcing of masked-out
pixels to black. -/
def applyDepthHeatmapCore (ext : ExtOps) (depth : List DVal)
    (maskValid : List Bool) (minD maxD : ℚ) (autoContrast : Bool)
    (logScale useEdgeBoost : Bool) (edgeBoostFactor : ℚ)
    (useClahe : Bool) (colorMapName : String) : Image × ℚ × ℚ :=
  let ab := effectiveBounds depth maskValid minD maxD autoContrast
  let scaled0 := scaleStage ext depth ab.1 ab.2 logScale
  let scaled3 := (clampStage depth scaled0 ab.1 ab.2).map DVal.oneSub
  let scaled4 := maskZero maskValid scaled3
  let scaled5 := edgeStage ext depth maskValid useEdgeBoost edgeBoostFactor scaled4
  let scaled8 := scaled5.map DVal.toByte
  let scaled8b := if useClahe then ext.clahe scaled8 else scaled8
  let colored := scaled8b.map (ext.cmapLut (resolveColorMap colorMapName))
  let final := List.zipWith (fun m c => if m then c else ((0, 0, 0) : Pix)) maskValid colored
  (final, ab)

/-- `applyDepthHeatmap`: the full per-frame depth visualization
transform, returning the colorized image and the effective bounds
`(a, b)` reported through `outA` / `outB`. -/
def applyDepthHeatmap (ext : ExtOps) (depth : List DVal)
    (minD maxD : ℚ) (autoContrast : Bool) (conf : Option (List ℚ))
    (thr : ℤ) (logScale useEdgeBoost : Bool) (edgeBoostFactor : ℚ)
    (useClahe : Bool) (colorMapName : String) : Image × ℚ × ℚ :=
  applyDepthHeatmapCore ext depth (combinedMask depth conf minD maxD thr)
    minD maxD autoContrast logScale useEdgeBoost edgeBoostFactor
    useClahe colorMapName

/-! ## General helper lemmas -/

theorem zipWith_getElem?_some {α β γ : Type} (f : α → β → γ) :
    ∀ (l1 : List α) (l2 : List β) (i : ℕ) (a : α) (b : β),
      l1[i]? = some a → l2[i]? = some b →
      (List.zipWith f l1 l2)[i]? = some (f a b) := by
  intro l1
  induction l1 with
  | nil => intro l2 i a b h1 _; simp at h1
  | cons x xs ih =>
    intro l2 i a b h1 h2
    cases l2 with
    | nil => simp at h2
    | cons y ys =>
      cases i with
      | zero => simp_all
      | succ n => simpa using ih ys n a b (by simpa using h1) (by simpa using h2)

theorem scaleStage_length (ext : ExtOps) (depth : List DVal) (a b : ℚ)
    (ls : Bool) : (scaleStage ext depth a b ls).length = depth.length := by
  unfold scaleStage
  split <;> simp

theorem maskZero_length (mask : List Bool) (s : List DVal) :
    (maskZero mask s).length = min mask.length s.length := by
  simp [maskZero]

theorem clampStage_length (depth s0 : List DVal) (a b : ℚ) :
    (clampStage depth s0 a b).length = min depth.length s0.length := by
  simp [clampStage]

theorem edgeStage_length (ext : ExtOps) (depth : List DVal)
    (mask : List Bool) (ue : Bool) (ebf : ℚ) (s4 : List DVal)
    (hgn : ∀ l, (ext.gradNorm l).length = l.length)
    (hm : mask.length = depth.length) (hs : s4.length = depth.length) :
    (edgeStage ext depth mask ue ebf s4).length = depth.length := by
  unfold edgeStage
  split
  · simp [maskZero_length, hgn, hm, hs]
  · exact hs

/-! ## C2: the confidence fallback -/

theorem zipWith_and_all_false {cf : List ℚ} {thr : ℤ}
    (h : ∀ c ∈ cf, (thr : ℚ) < c) (base : List Bool) :
    ∀ x ∈ List.zipWith (fun b c => b && decide (c ≤ (thr : ℚ))) base cf,
      x = false := by
  induction base generalizing cf with
  | nil => simp
  | cons b bs ih =>
    cases cf with
    | nil => simp
    | cons c cs =>
      intro x hx
      rcases List.mem_cons.mp hx with h0 | h1
      · have hc : (thr : ℚ) < c := h c (List.mem_cons_self c cs)
        subst h0
        simp [not_le.mpr hc]
      · exact ih (fun c' hc' => h c' (List.mem_cons_of_mem c hc')) x h1

theorem combinedMask_conf_over {cf : List ℚ} {thr : ℤ}
    (depth : List DVal) (minD maxD : ℚ)
    (h : ∀ c ∈ cf, (thr : ℚ) < c) :
    combinedMask depth (some cf) minD maxD thr
      = combinedMask depth none minD maxD thr := by
  unfold combinedMask
  have hz : (List.zipWith (fun b c => b && decide (c ≤ (thr : ℚ)))
      (depth.map (maskValidBase minD maxD)) cf).count true = 0 := by
    refine List.count_eq_zero.mpr (fun hmem => ?_)
    have := zipWith_and_all_false h (depth.map (maskValidBase minD maxD)) true hmem
    simp at this
  simp only [hz]
  have : 0 < max 1000 (depth.length / 1000) :=
    lt_of_lt_of_le (by norm_num) (le_max_left _ _)
  simp [this]

/-- Claim C2: a confidence frame in which every pixel strictly exceeds
the threshold empties the AND-combined mask, so the valid-pixel floor
discards the confidence contribution and the heatmap equals the one
computed with no confidence frame at all. -/
theorem heatmap_conf_all_over_threshold (ext : ExtOps) (depth : List DVal)
    (minD maxD : ℚ) (autoContrast : Bool) (cf : List ℚ) (thr : ℤ)
    (logScale useEdgeBoost : Bool) (edgeBoostFactor : ℚ)
    (useClahe : Bool) (colorMapName : String)
    (h : ∀ c ∈ cf, (thr : ℚ) < c) :
    applyDepthHeatmap ext depth minD maxD autoContrast (some cf) thr
        logScale useEdgeBoost edgeBoostFactor useClahe colorMapName
      = applyDepthHeatmap ext depth minD maxD autoContrast none thr
        logScale useEdgeBoost edgeBoostFactor useClahe colorMapName := by
  unfold applyDepthHeatmap
  rw [combinedMask_conf_over depth minD maxD h]

/-- Witness for C2 at a concrete frame: a 3-pixel depth frame with a
confidence frame everywhere above the threshold 60. -/
theorem heatmap_conf_all_over_threshold_witness :
    (∀ c ∈ [(61 : ℚ), 75, 100], ((60 : ℤ) : ℚ) < c) ∧
    applyDepthHeatmap idOps [DVal.val 5, DVal.val 7, DVal.nan] 1 10 true
        (some [61, 75, 100]) 60 false false 0 false "turbo"
      = applyDepthHeatmap idOps [DVal.val 5, DVal.val 7, DVal.nan] 1 10 true
        none 60 false false 0 false "turbo" :=
  ⟨by intro c hc; fin_cases hc <;> norm_num,
   heatmap_conf_all_over_threshold idOps [DVal.val 5, DVal.val 7, DVal.nan]
     1 10 true [61, 75, 100] 60 false false 0 false "turbo"
     (by intro c hc; fin_cases hc <;> norm_num)⟩

/-! ## C3: invalid pixels are forced to black -/

/-- A depth sample that claim C3 calls invalid: non-finite or
non-positive. -/
def invalidDepth (d : DVal) : Prop :=
  d = DVal.nan ∨ d = DVal.posInf ∨ d = DVal.negInf ∨ ∃ q, d = DVal.val q ∧ q ≤ 0

theorem maskValidBase_eq_false (minD maxD : ℚ) {d : DVal}
    (hd : invalidDepth d) : maskValidBase minD maxD d = false := by
  rcases hd with h | h | h | ⟨q, h, hq⟩ <;> subst h
  · simp [maskValidBase, DVal.eqSelf]
  · simp [maskValidBase, DVal.leC]
  · simp [maskValidBase, DVal.geC]
  · simp [maskValidBase, DVal.geC, DVal.leC, DVal.eqSelf, DVal.gtC, not_lt.mpr hq]

theorem combinedMask_none (depth : List DVal) (minD maxD : ℚ) (thr : ℤ) :
    combinedMask depth none minD maxD thr
      = depth.map (maskValidBase minD maxD) := rfl

theorem combinedMask_some (depth : List DVal) (cf : List ℚ)
    (minD maxD : ℚ) (thr : ℤ) :
    combinedMask depth (some cf) minD maxD thr
      = (if (List.zipWith (fun b c => b && decide (c ≤ (thr : ℚ)))
              (depth.map (maskValidBase minD maxD)) cf).count true
            < max 1000 (depth.length / 1000)
         then depth.map (maskValidBase minD maxD)
         else List.zipWith (fun b c => b && decide (c ≤ (thr : ℚ)))
              (depth.map (maskValidBase minD maxD)) cf) := rfl

theorem combinedMask_length (depth : List DVal) (conf : Option (List ℚ))
    (minD maxD : ℚ) (thr : ℤ)
    (hconf : ∀ cf, conf = some cf → cf.length = depth.length) :
    (combinedMask depth conf minD maxD thr).length = depth.length := by
  cases conf with
  | none => rw [combinedMask_none]; simp
  | some cf =>
    have hcf := hconf cf rfl
    rw [combinedMask_some]
    split <;> simp [hcf]

theorem combinedMask_getElem?_false (depth : List DVal)
    (conf : Option (List ℚ)) (minD maxD : ℚ) (thr : ℤ)
    (hconf : ∀ cf, conf = some cf → cf.length = depth.length)
    (i : ℕ) (d : DVal) (hd : depth[i]? = some d)
    (hbase : maskValidBase minD maxD d = false) :
    (combinedMask depth conf minD maxD thr)[i]? = some false := by
  have hbi : (depth.map (maskValidBase minD maxD))[i]? = some false := by
    rw [List.getElem?_map, hd]
    simp [hbase]
  cases conf with
  | none => rw [combinedMask_none]; exact hbi
  | some cf =>
    have hcf := hconf cf rfl
    have hi : i < depth.length := by
      by_contra hlt
      rw [List.getElem?_eq_none (by omega)] at hd
      exact Option.noConfusion hd
    have hci : cf[i]? = some cf[i] := List.getElem?_eq_getElem (by omega)
    rw [combinedMask_some]
    split
    · exact hbi
    · have := zipWith_getElem?_some (fun b c => b && decide (c ≤ (thr : ℚ)))
        (depth.map (maskValidBase minD maxD)) cf i false (cf[i]) hbi hci
      simpa using this

theorem zipWith_mask_black (mask : List Bool) (colored : Image) (i : ℕ)
    (hmi : mask[i]? = some false) (hi : i < colored.length) :
    (List.zipWith (fun m c => if m then c else ((0, 0, 0) : Pix))
      mask colored)[i]? = some (0, 0, 0) := by
  have := zipWith_getElem?_some (fun m c => if m then c else ((0, 0, 0) : Pix))
    mask colored i false colored[i] hmi (List.getElem?_eq_getElem hi)
  simpa using this

theorem applyDepthHeatmapCore_black (ext : ExtOps) (depth : List DVal)
    (mask : List Bool) (minD maxD : ℚ) (autoC logScale ue : Bool)
    (ebf : ℚ) (uc : Bool) (cmn : String)
    (hcl : ∀ l, (ext.clahe l).length = l.length)
    (hgn : ∀ l, (ext.gradNorm l).length = l.length)
    (hm : mask.length = depth.length)
    (i : ℕ) (hmi : mask[i]? = some false) (hi : i < depth.length) :
    (applyDepthHeatmapCore ext depth mask minD maxD autoC logScale ue ebf
      uc cmn).1[i]? = some ((0, 0, 0) : Pix) := by
  simp only [applyDepthHeatmapCore]
  apply zipWith_mask_black _ _ _ hmi
  have hs4 : (maskZero mask ((clampStage depth
      (scaleStage ext depth
        (effectiveBounds depth mask minD maxD autoC).1
        (effectiveBounds depth mask minD maxD autoC).2 logScale)
      (effectiveBounds depth mask minD maxD autoC).1
      (effectiveBounds depth mask minD maxD autoC).2).map
        DVal.oneSub)).length = depth.length := by
    simp [maskZero_length, clampStage_length, scaleStage_length, hm]
  have hs5 := edgeStage_length ext depth mask ue ebf _ hgn hm hs4
  rw [List.length_map]
  split
  · rw [hcl, List.length_map, hs5]; exact hi
  · rw [List.length_map, hs5]; exact hi

/-- Claim C3: with any configuration and any (or no) confidence frame,
every pixel whose depth sample is non-positive or non-finite comes out
exactly black `(0,0,0)` in the heatmap, for every behaviour of the
external OpenCV primitives that preserves image shape. -/
theorem heatmap_invalid_pixel_black (ext : ExtOps) (depth : List DVal)
    (minD maxD : ℚ) (autoC : Bool) (conf : Option (List ℚ)) (thr : ℤ)
    (logScale ue : Bool) (ebf : ℚ) (uc : Bool) (cmn : String)
    (hconf : ∀ cf, conf = some cf → cf.length = depth.length)
    (hcl : ∀ l, (ext.clahe l).length = l.length)
    (hgn : ∀ l, (ext.gradNorm l).length = l.length)
    (i : ℕ) (d : DVal) (hd : depth[i]? = some d)
    (hbad : invalidDepth d) :
    (applyDepthHeatmap ext depth minD maxD autoC conf thr logScale ue ebf
      uc cmn).1[i]? = some ((0, 0, 0) : Pix) := by
  unfold applyDepthHeatmap
  have hi : i < depth.length := by
    by_contra hlt
    rw [List.getElem?_eq_none (by omega)] at hd
    exact Option.noConfusion hd
  exact applyDepthHeatmapCore_black ext depth _ minD maxD autoC logScale
    ue ebf uc cmn hcl hgn
    (combinedMask_length depth conf minD maxD thr hconf) i
    (combinedMask_getElem?_false depth conf minD maxD thr hconf i d hd
      (maskValidBase_eq_false minD maxD hbad)) hi

/-- Witness for C3 at a concrete frame: pixel 0 is NaN and pixel 1 is
negative; both come out black (with edge boost, CLAHE and a non-default
color map enabled). -/
theorem heatmap_invalid_pixel_black_witness :
    ([DVal.nan, DVal.val (-2), DVal.val 5] : List DVal)[0]? = some DVal.nan ∧
    invalidDepth DVal.nan ∧
    (applyDepthHeatmap idOps [DVal.nan, DVal.val (-2), DVal.val 5] 1 10
      true none 60 false true 1 true "jet").1[0]? = some ((0, 0, 0) : Pix) :=
  ⟨rfl, Or.inl rfl,
   heatmap_invalid_pixel_black idOps [DVal.nan, DVal.val (-2), DVal.val 5]
     1 10 true none 60 false true 1 true "jet"
     (fun cf h => by simp at h) (fun l => rfl) (fun l => by simp [idOps])
     0 DVal.nan rfl (Or.inl rfl)⟩

/-! ## C1: the auto-contrast bounds -/

/-- Modelled from the spec, claim C1 as stated: nearest-rank percentile
selection (the value of 1-based rank `⌈pct * n⌉` among the sorted valid
values), engaged as soon as at least 100 valid samples exist and the
spread exceeds 0.5 m. -/
def claimedBoundsC1 (vals : List ℚ) (minD maxD : ℚ)
    (autoContrast : Bool) : ℚ × ℚ :=
  if autoContrast ∧ 100 ≤ vals.length then
    let p2 := (sortQ vals).getD ((ratCeil (2 / 100 * (vals.length : ℚ))).toNat - 1) 0
    let p98 := (sortQ vals).getD ((ratCeil (98 / 100 * (vals.length : ℚ))).toNat - 1) 0
    if 1 / 2 < p98 - p2 then (p2, p98) else (minD, maxD)
  else (minD, maxD)

/-- Claim C1 amended to the code: the percentile stretch engages only
with strictly more than 100 valid samples (`vals.size() > 100`), and the
percentile is the sorted value at zero-based index `⌊pct * (n - 1)⌋`
(the truncated `pct * (vals.size() - 1)`), not the nearest rank
`⌈pct * n⌉`. -/
def amendedBoundsC1 (vals : List ℚ) (minD maxD : ℚ)
    (autoContrast : Bool) : ℚ × ℚ :=
  if autoContrast ∧ 100 < vals.length then
    let p2 := (sortQ vals).getD
      (ratFloor (2 / 100 * ((vals.length - 1 : ℕ) : ℚ))).toNat 0
    let p98 := (sortQ vals).getD
      (ratFloor (98 / 100 * ((vals.length - 1 : ℕ) : ℚ))).toNat 0
    if 1 / 2 < p98 - p2 then (p2, p98) else (minD, maxD)
  else (minD, maxD)

/-- Claim C1, amended: the effective bounds reported by
`applyDepthHeatmap` are exactly the amended percentile computation over
the depth values selected by the (combined, fallback-relaxed) validity
mask, and `(cfg.min, cfg.max)` in every other case. -/
theorem heatmap_bounds_eq_amended_percentiles (ext : ExtOps)
    (depth : List DVal) (minD maxD : ℚ) (autoC : Bool)
    (conf : Option (List ℚ)) (thr : ℤ) (logScale ue : Bool) (ebf : ℚ)
    (uc : Bool) (cmn : String) :
    (applyDepthHeatmap ext depth minD maxD autoC conf thr logScale ue ebf
        uc cmn).2
      = amendedBoundsC1
          (validVals depth (combinedMask depth conf minD maxD thr))
          minD maxD autoC := by
  show effectiveBounds depth (combinedMask depth conf minD maxD thr)
      minD maxD autoC = _
  unfold effectiveBounds amendedBoundsC1 nthPctVal
  rcases autoC with _ | _
  · simp
  · by_cases h : 100 < (validVals depth (combinedMask depth conf minD maxD thr)).length
    · simp [h]
    · simp [h]

/-- Counterexample to claim C1 as stated: a frame with exactly 100
valid samples, spread far above 0.5 m.  The claimed nearest-rank bounds
would be `(2, 98)`, but the code requires strictly more than 100 samples
and falls back to `(cfg.min, cfg.max) = (0, 1000)`. -/
theorem heatmap_bounds_claim_fails_at_100_samples :
    (let depth := (List.range 100).map (fun k => DVal.val ((k : ℚ) + 1))
     let vals := validVals depth (combinedMask depth none 0 1000 60)
     100 ≤ vals.length ∧
     1 / 2 < (sortQ vals).getD ((ratCeil (98 / 100 * (vals.length : ℚ))).toNat - 1) 0
       - (sortQ vals).getD ((ratCeil (2 / 100 * (vals.length : ℚ))).toNat - 1) 0 ∧
     claimedBoundsC1 vals 0 1000 true = (2, 98) ∧
     (applyDepthHeatmap idOps depth 0 1000 true none 60 false false 0
       false "turbo").2 = (0, 1000) ∧
     (applyDepthHeatmap idOps depth 0 1000 true none 60 false false 0
       false "turbo").2 ≠ claimedBoundsC1 vals 0 1000 true) := by
  set_option maxRecDepth 400000 in with_unfolding_all decide

/-! ## C4: ordering of the effective bounds -/

theorem effectiveBounds_lt (depth : List DVal) (mask : List Bool)
    (minD maxD : ℚ) (autoC : Bool) (h : minD < maxD) :
    (effectiveBounds depth mask minD maxD autoC).1
      < (effectiveBounds depth mask minD maxD autoC).2 := by
  simp only [effectiveBounds]
  split_ifs with h1 h2 h3
  · dsimp only
    linarith
  · simpa using h
  · simpa using h
  · simpa using h

/-- Claim C4, amended: the effective range satisfies `a < b` whenever
the configured range does (`cfg.minDepth < cfg.maxDepth`) — both in the
auto-contrast fallback and in the percentile case, where the spread
guard `p98 - p2 > 0.5` enforces it.  The code contains no nudging of a
degenerate configured range, so the hypothesis cannot be dropped. -/
theorem heatmap_bounds_ordered (ext : ExtOps) (depth : List DVal)
    (minD maxD : ℚ) (autoC : Bool) (conf : Option (List ℚ)) (thr : ℤ)
    (logScale ue : Bool) (ebf : ℚ) (uc : Bool) (cmn : String)
    (h : minD < maxD) :
    (applyDepthHeatmap ext depth minD maxD autoC conf thr logScale ue ebf
        uc cmn).2.1
      < (applyDepthHeatmap ext depth minD maxD autoC conf thr logScale ue
        ebf uc cmn).2.2 :=
  effectiveBounds_lt depth (combinedMask depth conf minD maxD thr)
    minD maxD autoC h

/-- Witness for the amended C4 at a concrete input. -/
theorem heatmap_bounds_ordered_witness :
    (1 : ℚ) < 2 ∧
    (applyDepthHeatmap idOps [DVal.val 5] 1 2 true none 60 false false 0
        false "turbo").2.1
      < (applyDepthHeatmap idOps [DVal.val 5] 1 2 true none 60 false
        false 0 false "turbo").2.2 :=
  ⟨by norm_num,
   heatmap_bounds_ordered idOps [DVal.val 5] 1 2 true none 60 false false
     0 false "turbo" (by norm_num)⟩

/-- Counterexample to claim C4 as stated: with
`cfg.minDepth = cfg.maxDepth = 5` and the auto-contrast fallback (an
empty frame), `applyDepthHeatmap` reports the degenerate range `(5, 5)`;
no nudging exists. -/
theorem heatmap_bounds_degenerate :
    (applyDepthHeatmap idOps [] 5 5 true none 60 false false 0 false
      "turbo").2 = (5, 5) ∧
    ¬ (applyDepthHeatmap idOps [] 5 5 true none 60 false false 0 false
      "turbo").2.1
      < (applyDepthHeatmap idOps [] 5 5 true none 60 false false 0 false
      "turbo").2.2 := by
  with_unfolding_all decide

/-! ## C5: the PFM codec (`writePFM` / `readPFM`, lines 45-86)

The PFM file is modelled at byte level (a `List ℕ` of byte values), with
a 32-bit float sample represented by its bit pattern (a natural number
below `2^32`), serialized little-endian; `fwrite` / `fread` copy bits,
so bit-exactness is representation equality.  `readPFM` parses the
header with `fscanf`, whose semantics (leading-whitespace skipping for
`%d` / `%f`, and maximal-whitespace consumption for a white-space
directive in the format string) are modelled below. -/

/-- C-locale `isspace` on a byte (what `fscanf` treats as whitespace). -/
def isWsB (b : ℕ) : Bool := b = 32 || (9 ≤ b && b ≤ 13)

/-- ASCII digit test. -/
def isDigitB (b : ℕ) : Bool := 48 ≤ b && b ≤ 57

/-- Little-endian byte serialization of a 32-bit float bit pattern
(`fwrite(depth.ptr<float>(0), sizeof(float), total, f)`). -/
def f32Bytes (w : ℕ) : List ℕ :=
  [w % 256, w / 256 % 256, w / 65536 % 256, w / 16777216 % 256]

/-- `fprintf(f, "Pf\n%d %d\n-1.0\n", depth.cols, depth.rows)`. -/
def pfmHeaderBytes (cols rows : ℕ) : List ℕ :=
  [80, 102, 10] ++ (Nat.toDigits 10 cols).map Char.toNat ++ [32]
    ++ (Nat.toDigits 10 rows).map Char.toNat ++ [10]
    ++ [45, 49, 46, 48, 10]

/-- `writePFM`: fails on an empty frame (the `depth.empty()` check;
the `CV_32FC1` check is intrinsic to the model), otherwise emits the
ASCII header followed by the raw little-endian float data in row-major
order. -/
def writePFMbytes (cols rows : ℕ) (data : List ℕ) : Option (List ℕ) :=
  if rows * cols = 0 then none
  else some (pfmHeaderBytes cols rows ++ data.flatMap f32Bytes)

/-- Maximal whitespace consumption (a white-space directive in a
`fscanf` format, or the leading skip of `%d` / `%f`). -/
def skipWsB : List ℕ → List ℕ
  | [] => []
  | b :: bs => if isWsB b then skipWsB bs else b :: bs

/-- Split off a maximal digit run. -/
def takeDigits : List ℕ → List ℕ × List ℕ
  | [] => ([], [])
  | b :: bs =>
      if isDigitB b then
        let p := takeDigits bs
        (b :: p.1, p.2)
      else ([], b :: bs)

/-- Value of a digit run. -/
def digitsVal (ds : List ℕ) : ℕ := ds.foldl (fun a b => a * 10 + (b - 48)) 0

/-- `fscanf` `%d`: skip whitespace, optional sign, then a nonempty
digit run (matching failure otherwise). -/
def parseIntB (bs : List ℕ) : Option (ℤ × List ℕ) :=
  let bs1 := skipWsB bs
  match bs1 with
  | 45 :: rest =>
      let p := takeDigits rest
      if p.1 = [] then none else some (-(digitsVal p.1 : ℤ), p.2)
  | 43 :: rest =>
      let p := takeDigits rest
      if p.1 = [] then none else some ((digitsVal p.1 : ℤ), p.2)
  | _ =>
      let p := takeDigits bs1
      if p.1 = [] then none else some ((digitsVal p.1 : ℤ), p.2)

/-- `fscanf` `%f` on the scale field, whose value `readPFM` discards:
skip whitespace, optional sign, digits with an optional fractional
part; only the consumed input matters.  (Exponent and hex forms are
never produced by `writePFM` and are not modelled.) -/
def parseFloatB (bs : List ℕ) : Option (List ℕ) :=
  let bs1 := skipWsB bs
  let bs2 := match bs1 with
    | 45 :: r => r
    | 43 :: r => r
    | _ => bs1
  let p1 := takeDigits bs2
  let p2 := match p1.2 with
    | 46 :: r => takeDigits r
    | _ => ([], p1.2)
  if p1.1 = [] ∧ p2.1 = [] then none else some p2.2

/-- `fread` of `n` 32-bit floats: `n` groups of 4 bytes, assembled
little-endian; a short read makes `readPFM` return an empty frame. -/
def readNFloats : ℕ → List ℕ → Option (List ℕ × List ℕ)
  | 0, bs => some ([], bs)
  | n + 1, b0 :: b1 :: b2 :: b3 :: bs =>
      match readNFloats n bs with
      | none => none
      | some p => some ((b0 + 256 * b1 + 65536 * b2 + 16777216 * b3) :: p.1, p.2)
  | _ + 1, _ => none

/-- `readPFM`: reads the 2-byte magic, `fscanf(f, "%d %d\n", ...)`,
`fscanf(f, "%f\n", ...)`, then `fread`s `width * height` floats,
returning `(rows, cols, data)` of the produced `Mat(height, width)`.
A negative parsed dimension makes the `size_t` float count enormous, so
the `fread` comes up short and the read fails, modelled directly as
failure.  Note the white-space directives at the end of both `fscanf`
formats: the second consumes the newline after the scale *and every
following whitespace-valued byte*, which can eat into the binary float
data. -/
def readPFMbytes (bs : List ℕ) : Option (ℕ × ℕ × List ℕ) :=
  match bs with
  | 80 :: 102 :: rest =>
      match parseIntB rest with
      | none => none
      | some (w, r1) =>
          match parseIntB r1 with
          | none => none
          | some (h, r2) =>
              let r3 := skipWsB r2
              match parseFloatB r3 with
              | none => none
              | some r4 =>
                  let r5 := skipWsB r4
                  if w < 0 ∨ h < 0 then none
                  else
                    match readNFloats (w.toNat * h.toNat) r5 with
                    | none => none
                    | some p => some (h.toNat, w.toNat, p.1)
  | _ => none

/-- Claim C5 fails on the code (code bug): the trailing white-space
directive of `fscanf(f, "%f\n", &scale)` in `readPFM` consumes not just
the newline after the scale but every following whitespace-valued byte.
A 1x1 frame whose single float has bit pattern `0x40000020`
(little-endian first byte `0x20` = space; a finite positive value,
approximately 2.0000019f, exponent field `0x80 ≠ 0xFF`) therefore fails
to read back: the `fread` comes up one byte short and `readPFM` returns
an empty frame.  A frame whose data does not start with a
whitespace-valued byte (bit pattern `0x40000000` = 2.0f) round-trips
bit-exactly, showing the model is not rigged. -/
theorem pfm_roundtrip_fails_on_whitespace_leading_float :
    (1073741856 / 2 ^ 23) % 256 ≠ 255 ∧
    1073741856 < 2 ^ 31 ∧
    writePFMbytes 1 1 [1073741856]
      = some (pfmHeaderBytes 1 1 ++ f32Bytes 1073741856) ∧
    readPFMbytes (pfmHeaderBytes 1 1 ++ f32Bytes 1073741856) = none ∧
    writePFMbytes 1 1 [1073741824]
      = some (pfmHeaderBytes 1 1 ++ f32Bytes 1073741824) ∧
    readPFMbytes (pfmHeaderBytes 1 1 ++ f32Bytes 1073741824)
      = some (1, 1, [1073741824]) := by
  decide

/-! ## Engine state, filesystem and external-world models

`ExtractionEngine`'s mutable members (`extraction_engine.hpp`, lines
214-226); `latestPreviewInfo_` and `latestLegend_` are not modelled (no
claim mentions them), and the concurrent mutation of `cancelRequested_`
by `cancel()` is represented by the per-iteration `cancelSeen`
observation in the event stream. -/
structure EngineState where
  isRunning : Bool
  cancelRequested : Bool
  latestPreview : Image
  latestRawDepth : List DVal
  previewVersion : ℤ
  storedPreviews : List Image
  storedFrameIndices : List ℤ
  lastExtractionPath : String
deriving DecidableEq, Repr

/-- Payload of a file on disk, as the OpenCV readers of this code can
decode it: a color PNG, an 8-bit-or-wider confidence PNG, a
float raw-depth file (`isF32` = decodes as `CV_32FC1`), a raw binary
dump, or the metadata JSON.  A file of any other shape at a probed path
behaves as unreadable for the specific reader probing it. -/
inductive FileData where
  | img (im : Image)
  | confImg (is8u : Bool) (data : List ℚ)
  | rawDepth (isF32 : Bool) (d : List DVal)
  | rawBin (d : List DVal)
  | meta
deriving DecidableEq, Repr

/-- The filesystem: an association list from paths to payloads; a write
shadows older entries, nothing ever deletes. -/
abbrev FS : Type := List (String × FileData)

/-- A file write. -/
def fsWrite (fs : FS) (p : String) (d : FileData) : FS := (p, d) :: fs

/-- `std::setw(6) << std::setfill('0')` on an int (right-adjusted,
zero-filled to width 6). -/
def pad6 (i : ℤ) : String :=
  let core := (if i < 0 then "-" else "") ++ String.mk (Nat.toDigits 10 i.natAbs)
  String.mk (List.replicate (6 - core.length) '0') ++ core

/-- `<extraction>/depth_maps/depth_NNNNNN.exr`. -/
def depthExrPath (base : String) (i : ℤ) : String :=
  base ++ "/depth_maps/depth_" ++ pad6 i ++ ".exr"

/-- `<extraction>/depth_heatmaps/heatmap_NNNNNN.png`. -/
def heatmapPngPath (base : String) (i : ℤ) : String :=
  base ++ "/depth_heatmaps/heatmap_" ++ pad6 i ++ ".png"

/-- `<extraction>/left_rgb/left_NNNNNN.png`. -/
def leftPngPath (base : String) (i : ℤ) : String :=
  base ++ "/left_rgb/left_" ++ pad6 i ++ ".png"

/-- `<extraction>/confidence_maps/conf_NNNNNN.png`. -/
def confPngPath (base : String) (i : ℤ) : String :=
  base ++ "/confidence_maps/conf_" ++ pad6 i ++ ".png"

/-- `getStoredFrameIndexAt`: bounds-checked lookup, `-1` otherwise. -/
def getStoredFrameIndexAt (s : EngineState) (index : ℤ) : ℤ :=
  if 0 ≤ index ∧ index < (s.storedFrameIndices.length : ℤ) then
    s.storedFrameIndices.getD index.toNat 0
  else -1

/-- External OpenCV / engine-level primitives used by the orchestrator
and the re-processor: `addWeighted`, the motion-highlight transform
(absdiff / minMaxLoc / threshold / dilate / blend, all OpenCV calls),
preview downscaling (`cv::resize`, identity when the image is already
narrow enough), confidence contrast normalization, `convertTo 8U`, and
`hconcat`. -/
structure EngOps where
  pix : ExtOps
  addW : ℚ → Image → Image → Image
  motion : Image → List DVal → List DVal → ℚ → Image
  downscale : Image → ℕ → Image
  norm8u : List ℚ → List ℚ
  to8u : List ℚ → List ℚ
  hconcat : Image → Image → Image

/-- Concrete instantiation of the external primitives for evaluating
the model. -/
def idEngOps : EngOps where
  pix := idOps
  addW := fun _ h _ => h
  motion := fun h _ _ _ => h
  downscale := fun im _ => im
  norm8u := fun l => l
  to8u := fun l => l
  hconcat := fun a _ => a

/-- `ExtractionResult` (hpp lines 89-109). -/
structure ExtractionResult where
  success : Bool
  errorMessage : String
  outputPath : String
  framesProcessed : ℕ
deriving DecidableEq, Repr

/-- `ExtractionResult::Success`. -/
def ExtractionResult.mkSuccess (path : String) (frames : ℕ) : ExtractionResult :=
  ⟨true, "", path, frames⟩

/-- `ExtractionResult::Failure`. -/
def ExtractionResult.mkFailure (err : String) : ExtractionResult :=
  ⟨false, err, "", 0⟩

def alreadyRunningMsg : String := "Extraction already in progress"

def cancelMsg : String := "Extraction cancelled by user"

def openFailPre : String := "Failed to open SVO file with depth mode: "

def dirFailMsg : String := "Failed to create extraction directory"

def writerFailMsg : String := "Failed to create depth video writer"

def noFramesPre : String :=
  "No depth frames extracted. Possible causes: invalid SVO file path, file contains 0 frames, or SDK opened live camera instead of SVO. Path: "

/-- `DepthExtractionConfig` (hpp lines 52-84), floats as rationals. -/
structure DepthExtractionConfig where
  svoFilePath : String
  baseOutputPath : String
  outputFps : ℚ
  minDepth : ℚ
  maxDepth : ℚ
  saveRawDepth : Bool
  rawDepthFormat : String
  saveColorized : Bool
  saveVideo : Bool
  saveRgbFrames : Bool
  saveConfidenceMaps : Bool
  depthMode : String
  overlayOnRgb : Bool
  overlayStrength : ℤ
  autoContrast : Bool
  confidenceThreshold : ℤ
  useEdgeBoost : Bool
  edgeBoostFactor : ℚ
  useClahe : Bool
  useTemporalSmooth : Bool
  temporalAlpha : ℚ
  logScale : Bool
  colorMap : String
  highlightMotion : Bool
  motionGain : ℚ
  storePreviews : Bool
  previewMaxWidth : ℤ
deriving Repr

/-- The default `DepthExtractionConfig` values of the header. -/
def defaultDepthCfg : DepthExtractionConfig where
  svoFilePath := ""
  baseOutputPath := ""
  outputFps := 1
  minDepth := 10
  maxDepth := 40
  saveRawDepth := false
  rawDepthFormat := "tiff32f"
  saveColorized := true
  saveVideo := false
  saveRgbFrames := false
  saveConfidenceMaps := false
  depthMode := "NEURAL"
  overlayOnRgb := true
  overlayStrength := 100
  autoContrast := true
  confidenceThreshold := 60
  useEdgeBoost := false
  edgeBoostFactor := 7 / 10
  useClahe := false
  useTemporalSmooth := false
  temporalAlpha := 3 / 10
  logScale := false
  colorMap := "turbo"
  highlightMotion := false
  motionGain := 3 / 5
  storePreviews := true
  previewMaxWidth := 960

/-- `std::round` (half away from zero). -/
def roundHalfAway (q : ℚ) : ℤ :=
  if q < 0 then -ratFloor (-q + 1 / 2) else ratFloor (q + 1 / 2)

/-! ## `getConfidenceForStored` (lines 360-380) -/

/-- `cv::imread(path, IMREAD_UNCHANGED)` as the confidence loader sees
it: only a confidence image decodes (anything else at that path is
unreadable noise for this probe). -/
def imreadConfUnchanged (fs : FS) (p : String) : Option (Bool × List ℚ) :=
  match List.lookup p fs with
  | some (.confImg b d) => some (b, d)
  | _ => none

/-- `getConfidenceForStored`: exact index first, then probe offsets
`-2..2` in order (skipping negative indices), first readable wins;
convert to 8-bit if the file is wider. -/
def getConfidenceForStored (ops : EngOps) (s : EngineState) (fs : FS)
    (storedIndex : ℤ) : Option (List ℚ) :=
  if s.lastExtractionPath = "" then none
  else
    let m :=
      match imreadConfUnchanged fs (confPngPath s.lastExtractionPath storedIndex) with
      | some bd => some bd
      | none =>
          ([-2, -1, 0, 1, 2] : List ℤ).findSome? (fun d =>
            let alt := storedIndex + d
            if alt < 0 then none
            else imreadConfUnchanged fs (confPngPath s.lastExtractionPath alt))
    match m with
    | none => none
    | some bd => some (if bd.1 then bd.2 else ops.to8u bd.2)

/-! ## `reprocessDepthFrame` (lines 169-294) -/

/-- Outcomes of the external SDK calls a re-process can make: the first
camera open/grab (depth recompute path) and the second one (RGB re-seek
in the EXR path), with the measures they deliver. -/
structure ReproWorld where
  openOk : Bool
  grabOk : Bool
  depth : List DVal
  conf : List ℚ
  left : Option Image
  openOk2 : Bool
  grabOk2 : Bool
  left2 : Option Image

/-- The EXR fast path: `depth_maps/depth_NNNNNN.exr` read with
`IMREAD_UNCHANGED`, used only when non-empty and `CV_32FC1`. -/
def exrDepthOf (fs : FS) (base : String) (i : ℤ) : Option (List DVal) :=
  if base = "" then none
  else
    match List.lookup (depthExrPath base i) fs with
    | some (.rawDepth true d) => if d = [] then none else some d
    | _ => none

/-- Tail of `reprocessDepthFrame`: optionally overwrite the saved
heatmap, then update the latest preview, the stored entry at
`storedIndex` (when in range) and the preview version, returning
`!outPreview.empty()`. -/
def reprocessFinish (s : EngineState) (fs : FS) (out : Image)
    (storedIndex : ℤ) (overwriteSaved : Bool) : EngineState × FS × Bool :=
  let fs' :=
    if overwriteSaved ∧ s.lastExtractionPath ≠ "" ∧ out ≠ [] then
      fsWrite fs (heatmapPngPath s.lastExtractionPath storedIndex) (.img out)
    else fs
  let stored' :=
    if 0 ≤ storedIndex ∧ storedIndex < (s.storedPreviews.length : ℤ) then
      s.storedPreviews.set storedIndex.toNat out
    else s.storedPreviews
  ({ s with
      latestPreview := out
      storedPreviews := stored'
      previewVersion := s.previewVersion + 1 }, fs', out ≠ [])

/-- `reprocessDepthFrame`: EXR from disk if usable (no confidence
available on that path), else re-open the SVO and recompute; RGB
overlay base resolves disk cache first, then re-seek.  `framePos` is
consumed by the external `setSVOPosition`. -/
def reprocessDepthFrame (ops : EngOps) (s : EngineState) (fs : FS)
    (cfg : DepthExtractionConfig) (w : ReproWorld) (storedIndex : ℤ)
    (overwriteSaved : Bool) : EngineState × FS × Bool :=
  let _framePos := getStoredFrameIndexAt s storedIndex
  match exrDepthOf fs s.lastExtractionPath storedIndex with
  | none =>
      if ¬ w.openOk then (s, fs, false)
      else if ¬ w.grabOk then (s, fs, false)
      else
        let hm := applyDepthHeatmap ops.pix w.depth cfg.minDepth cfg.maxDepth
          cfg.autoContrast (if w.conf = [] then none else some w.conf)
          cfg.confidenceThreshold cfg.logScale cfg.useEdgeBoost
          cfg.edgeBoostFactor cfg.useClahe cfg.colorMap
        let leftBgr : Option Image := if cfg.overlayOnRgb then w.left else none
        let out := match leftBgr with
          | some l => ops.addW ((cfg.overlayStrength : ℚ) / 100) hm.1 l
          | none => hm.1
        reprocessFinish s fs out storedIndex overwriteSaved
  | some depthFloat =>
      let hm := applyDepthHeatmap ops.pix depthFloat cfg.minDepth cfg.maxDepth
        cfg.autoContrast none cfg.confidenceThreshold cfg.logScale
        cfg.useEdgeBoost cfg.edgeBoostFactor cfg.useClahe cfg.colorMap
      let leftBgr : Option Image :=
        if cfg.overlayOnRgb then
          match List.lookup (leftPngPath s.lastExtractionPath storedIndex) fs with
          | some (.img im) => some im
          | _ => if w.openOk2 ∧ w.grabOk2 then w.left2 else none
        else none
      let out := match leftBgr with
        | some l => ops.addW ((cfg.overlayStrength : ℚ) / 100) hm.1 l
        | none => hm.1
      reprocessFinish s fs out storedIndex overwriteSaved

/-! ## `extractDepth` (lines 887-1420) -/

/-- What one `grab` delivers when it succeeds: depth and confidence
measures, and the left view (already channel-converted to BGR). -/
structure FrameInput where
  depth : List DVal
  conf : List ℚ
  left : Option Image

/-- Result of one `camera.grab(runtime_params)` call. -/
inductive GrabOutcome where
  | eof
  | err
  | ok (fr : FrameInput)

/-- One iteration of the frame loop: the value of the cancellation flag
observed at the once-per-frame check, then the grab outcome. -/
structure DepthEvent where
  cancelSeen : Bool
  grab : GrabOutcome

/-- The external world of one depth run: camera-open outcome, the
extraction directory the output manager allocates (empty on failure),
video-writer open outcome, source fps, whether the OpenCV build can
write EXR, and the per-iteration event stream. -/
structure DepthWorld where
  openOk : Bool
  openErr : String
  extractionPath : String
  writerOk : Bool
  sourceFps : ℚ
  exrWriteOk : Bool
  events : List DepthEvent

/-- The loop-carried state of `extractDepth`'s frame loop.
`exrAllowed` models the function-local static `s_exrWriteAllowed`
(run-scoped here; the C++ static persists for the process). -/
structure LoopState where
  fs : FS
  eng : EngineState
  frameCount : ℕ
  extractedCount : ℕ
  emaDepth : Option (List DVal)
  prevDepth : Option (List DVal)
  exrAllowed : Bool
  videoFrames : List Image

/-- How the frame loop ended; `fuelExhausted` is a model artifact (the
supplied event list ended without an explicit end-of-stream). -/
inductive ExitKind where
  | cancelled
  | eofReached
  | fuelExhausted
deriving DecidableEq, Repr

/-- `emaDepth = alpha * depth + (1 - alpha) * emaDepth`, elementwise. -/
def emaStep (alpha : ℚ) (depth ema : List DVal) : List DVal :=
  List.zipWith (fun d e => (d.mulC alpha).addD (e.mulC (1 - alpha))) depth ema

/-- The raw-depth side effect of one processed frame (lines 1073-1143):
format dispatch on the lowercased `rawDepthFormat`, with the one-time
EXR disable on failure; returns the writes and the updated
`s_exrWriteAllowed`. -/
def rawDepthWrites (cfg : DepthExtractionConfig) (depthDir : String)
    (extracted : ℕ) (depth : List DVal) (exrAllowed exrWriteOk : Bool) :
    List (String × FileData) × Bool :=
  let fmt := lowerStr cfg.rawDepthFormat
  let base := depthDir ++ "/depth_" ++ pad6 (extracted : ℤ)
  if fmt = "auto" ∨ fmt = "exr" then
    if exrAllowed then
      if exrWriteOk then ([(base ++ ".exr", .rawDepth true depth)], exrAllowed)
      else ([], false)
    else ([], exrAllowed)
  else if fmt = "tiff32f" ∨ fmt = "tiff" then
    ([(base ++ ".tiff", .rawDepth true depth)], exrAllowed)
  else if fmt = "pfm" then
    if depth = [] then ([], exrAllowed)
    else ([(base ++ ".pfm", .rawDepth true depth)], exrAllowed)
  else if fmt = "bin" then
    ([(base ++ ".bin", .rawBin depth)], exrAllowed)
  else ([], exrAllowed)

/-- Processing of one retained frame with non-empty depth (lines
1058-1354): optional raw/RGB/confidence writes, temporal smoothing,
heatmap, motion highlight, overlay, preview + stored-preview update,
optional heatmap write and video append.  (The preview downscale width
test lives inside the external `downscale`.) -/
def processFrame (ops : EngOps) (cfg : DepthExtractionConfig)
    (path : String) (exrWriteOk : Bool) (st : LoopState)
    (fr : FrameInput) : LoopState :=
  let leftBgr : Option Image := if cfg.overlayOnRgb then fr.left else none
  let raw :=
    if cfg.saveRawDepth then
      rawDepthWrites cfg (path ++ "/depth_maps") st.extractedCount fr.depth
        st.exrAllowed exrWriteOk
    else ([], st.exrAllowed)
  let rgbW : List (String × FileData) :=
    match leftBgr with
    | some l =>
        if cfg.saveRgbFrames then
          [(path ++ "/left_rgb/left_" ++ pad6 (st.extractedCount : ℤ) ++ ".png", .img l)]
        else []
    | none => []
  let confW : List (String × FileData) :=
    if cfg.saveConfidenceMaps ∧ fr.conf ≠ [] then
      [(path ++ "/confidence_maps/conf_" ++ pad6 (st.extractedCount : ℤ) ++ ".png",
        .confImg true (ops.norm8u fr.conf))]
    else []
  let depthForViz :=
    if cfg.useTemporalSmooth then
      match st.emaDepth with
      | none => fr.depth
      | some e => emaStep cfg.temporalAlpha fr.depth e
    else fr.depth
  let ema' := if cfg.useTemporalSmooth then some depthForViz else st.emaDepth
  let hm := applyDepthHeatmap ops.pix depthForViz cfg.minDepth cfg.maxDepth
    cfg.autoContrast (if fr.conf = [] then none else some fr.conf)
    cfg.confidenceThreshold cfg.logScale cfg.useEdgeBoost
    cfg.edgeBoostFactor cfg.useClahe cfg.colorMap
  let heat :=
    match st.prevDepth with
    | some prev =>
        if cfg.highlightMotion ∧ prev.length = depthForViz.length then
          ops.motion hm.1 depthForViz prev cfg.motionGain
        else hm.1
    | none => hm.1
  let outputImage :=
    match leftBgr with
    | some l => ops.addW ((cfg.overlayStrength : ℚ) / 100) heat l
    | none => heat
  let toStore :=
    if 0 < cfg.previewMaxWidth then ops.downscale outputImage cfg.previewMaxWidth.toNat
    else outputImage
  let eng' :=
    { st.eng with
        latestRawDepth := fr.depth
        latestPreview := outputImage
        previewVersion := st.eng.previewVersion + 1
        storedPreviews :=
          if cfg.storePreviews then st.eng.storedPreviews ++ [toStore]
          else st.eng.storedPreviews
        storedFrameIndices :=
          if cfg.storePreviews then st.eng.storedFrameIndices ++ [(st.frameCount : ℤ)]
          else st.eng.storedFrameIndices }
  let heatW : List (String × FileData) :=
    if cfg.saveColorized then
      [(path ++ "/depth_heatmaps/heatmap_" ++ pad6 (st.extractedCount : ℤ) ++ ".png",
        .img outputImage)]
    else []
  { st with
      fs := (raw.1 ++ rgbW ++ confW ++ heatW).foldl (fun a w => fsWrite a w.1 w.2) st.fs
      eng := eng'
      emaDepth := ema'
      prevDepth := some depthForViz
      exrAllowed := raw.2
      videoFrames :=
        if cfg.saveColorized ∧ cfg.saveVideo then st.videoFrames ++ [outputImage]
        else st.videoFrames }

/-- The frame loop of `extractDepth` (lines 1009-1367): cancellation
check, grab, end-of-stream break, transient-error continue, every-Nth
frame selection, empty-depth skip, then frame processing. -/
def depthLoop (ops : EngOps) (cfg : DepthExtractionConfig) (path : String)
    (exrWriteOk : Bool) (frameInterval : ℕ) :
    List DepthEvent → LoopState → LoopState × ExitKind
  | [], st => (st, .fuelExhausted)
  | e :: rest, st =>
      if e.cancelSeen then (st, .cancelled)
      else
        match e.grab with
        | .eof => (st, .eofReached)
        | .err => depthLoop ops cfg path exrWriteOk frameInterval rest st
        | .ok fr =>
            if 1 < frameInterval ∧ st.frameCount % frameInterval ≠ 0 then
              depthLoop ops cfg path exrWriteOk frameInterval rest
                { st with frameCount := st.frameCount + 1 }
            else if fr.depth = [] then
              depthLoop ops cfg path exrWriteOk frameInterval rest
                { st with frameCount := st.frameCount + 1 }
            else
              let st' := processFrame ops cfg path exrWriteOk st fr
              depthLoop ops cfg path exrWriteOk frameInterval rest
                { st' with
                    extractedCount := st'.extractedCount + 1
                    frameCount := st'.frameCount + 1 }

/-- Everything `extractDepth` leaves behind: engine state, filesystem,
its result value, how the loop ended (`none` when setup failed before
the loop), the extracted count, whether the video writer and camera
were released, and the frames appended to the aggregate video. -/
structure DepthOutcome where
  eng : EngineState
  fs : FS
  result : ExtractionResult
  exit : Option ExitKind
  extracted : ℕ
  writerReleased : Bool
  cameraClosed : Bool
  videoFrames : List Image

/-- `extractDepth`: in-progress guard, camera open, output directory,
optional video writer, stored-preview reset, the frame loop, metadata
export, and the zero-frames failure check. -/
def extractDepth (ops : EngOps) (s : EngineState) (fs0 : FS)
    (cfg : DepthExtractionConfig) (w : DepthWorld) : DepthOutcome :=
  if s.isRunning then
    ⟨s, fs0, .mkFailure alreadyRunningMsg, none, 0, false, false, []⟩
  else
    let s0 := { s with isRunning := true, cancelRequested := false }
    if ¬ w.openOk then
      ⟨{ s0 with isRunning := false }, fs0,
        .mkFailure (openFailPre ++ w.openErr), none, 0, false, false, []⟩
    else
      let s1 := { s0 with lastExtractionPath := w.extractionPath }
      if w.extractionPath = "" then
        ⟨{ s1 with isRunning := false }, fs0, .mkFailure dirFailMsg,
          none, 0, false, true, []⟩
      else if cfg.saveVideo ∧ ¬ w.writerOk then
        ⟨{ s1 with isRunning := false }, fs0, .mkFailure writerFailMsg,
          none, 0, false, true, []⟩
      else
        let s2 := { s1 with storedPreviews := [], storedFrameIndices := [] }
        let frameInterval := max 1 (roundHalfAway (w.sourceFps / cfg.outputFps)).toNat
        let st0 : LoopState := ⟨fs0, s2, 0, 0, none, none, true, []⟩
        let lr := depthLoop ops cfg w.extractionPath w.exrWriteOk frameInterval
          w.events st0
        match lr.2 with
        | .cancelled =>
            ⟨{ lr.1.eng with isRunning := false }, lr.1.fs,
              .mkFailure cancelMsg, some .cancelled, lr.1.extractedCount,
              true, true, lr.1.videoFrames⟩
        | .fuelExhausted =>
            ⟨{ lr.1.eng with isRunning := false }, lr.1.fs,
              .mkFailure "", some .fuelExhausted, lr.1.extractedCount,
              false, false, lr.1.videoFrames⟩
        | .eofReached =>
            let fsM := fsWrite lr.1.fs (w.extractionPath ++ "/depth_metadata.json") .meta
            if lr.1.extractedCount = 0 then
              ⟨{ lr.1.eng with isRunning := false }, fsM,
                .mkFailure (noFramesPre ++ cfg.svoFilePath), some .eofReached,
                lr.1.extractedCount, true, true, lr.1.videoFrames⟩
            else
              ⟨{ lr.1.eng with isRunning := false }, fsM,
                .mkSuccess w.extractionPath lr.1.extractedCount, some .eofReached,
                lr.1.extractedCount, true, true, lr.1.videoFrames⟩

/-! ## `extractFrames` (lines 415-548) -/

/-- `FrameExtractionConfig` (hpp lines 29-35). -/
structure FrameExtractionConfig where
  svoFilePath : String
  baseOutputPath : String
  fps : ℚ
  cameraMode : String
  format : String

/-- One iteration of `extractFrames`'s loop: grab outcome, cancellation
flag observed inside the loop, and the two retrieves with their
images. -/
structure FrameEvent where
  grabOk : Bool
  cancelSeen : Bool
  leftOk : Bool
  left : Image
  rightOk : Bool
  right : Image

/-- External world of a frame run; `counter0` seeds the dataset-wide
global frame counter of the output manager. -/
structure FramesWorld where
  openOk : Bool
  outputPath : String
  fps : ℚ
  counter0 : ℕ
  events : List FrameEvent

/-- The loop of `extractFrames`; an exhausted event list behaves like a
final failing grab (model artifact).  Returns (filesystem, frame count,
cancelled). -/
def framesLoop (cfg : FrameExtractionConfig) (outputPath : String)
    (frameInterval : ℕ) :
    List FrameEvent → ℕ → ℕ → ℕ → FS → FS × ℕ × Bool
  | [], _, frameCount, _, fs => (fs, frameCount, false)
  | e :: rest, svoPosition, frameCount, counter, fs =>
      if ¬ e.grabOk then (fs, frameCount, false)
      else if e.cancelSeen then (fs, frameCount, true)
      else if svoPosition % frameInterval ≠ 0 then
        framesLoop cfg outputPath frameInterval rest (svoPosition + 1)
          frameCount counter fs
      else
        let doLeft := cfg.cameraMode = "left" ∨ cfg.cameraMode = "both"
        let fs1 :=
          if doLeft ∧ e.leftOk then
            fsWrite fs (outputPath ++ "/L_frame_" ++ pad6 (counter : ℤ)
              ++ "." ++ cfg.format) (.img e.left)
          else fs
        let counter1 := if doLeft ∧ e.leftOk then counter + 1 else counter
        let frames1 := if doLeft ∧ e.leftOk then frameCount + 1 else frameCount
        let doRight := cfg.cameraMode = "right" ∨ cfg.cameraMode = "both"
        let fs2 :=
          if doRight ∧ e.rightOk then
            fsWrite fs1 (outputPath ++ "/R_frame_" ++ pad6 (counter1 : ℤ)
              ++ "." ++ cfg.format) (.img e.right)
          else fs1
        let counter2 := if doRight ∧ e.rightOk then counter1 + 1 else counter1
        let frames2 := if doRight ∧ e.rightOk then frames1 + 1 else frames1
        framesLoop cfg outputPath frameInterval rest (svoPosition + 1)
          frames2 counter2 fs2

/-- `extractFrames`: in-progress guard, open, output directory, loop. -/
def extractFrames (s : EngineState) (fs0 : FS)
    (cfg : FrameExtractionConfig) (w : FramesWorld) :
    EngineState × FS × ExtractionResult :=
  if s.isRunning then (s, fs0, .mkFailure alreadyRunningMsg)
  else
    let s0 := { s with isRunning := true, cancelRequested := false }
    if ¬ w.openOk then
      ({ s0 with isRunning := false }, fs0, .mkFailure "Failed to open SVO file")
    else if w.outputPath = "" then
      ({ s0 with isRunning := false }, fs0,
        .mkFailure "Failed to create output directory")
    else
      let frameInterval := max 1 (roundHalfAway (w.fps / cfg.fps)).toNat
      let r := framesLoop cfg w.outputPath frameInterval w.events 0 0
        w.counter0 fs0
      if r.2.2 then ({ s0 with isRunning := false }, r.1, .mkFailure cancelMsg)
      else ({ s0 with isRunning := false }, r.1, .mkSuccess w.outputPath r.2.1)

/-! ## `extractVideo` (lines 550-753) -/

/-- `VideoExtractionConfig` (hpp lines 40-47). -/
structure VideoExtractionConfig where
  svoFilePath : String
  baseOutputPath : String
  cameraMode : String
  codec : String
  outputFps : ℚ
  quality : ℤ

/-- One iteration of `extractVideo`'s loop. -/
structure VideoEvent where
  cancelSeen : Bool
  grabOk : Bool
  left : Image
  right : Image

/-- External world of a video run. -/
structure VideoWorld where
  openOk : Bool
  extractionPath : String
  fps : ℚ
  totalFrames : ℕ
  leftWriterOk : Bool
  rightWriterOk : Bool
  sbsWriterOk : Bool
  events : List VideoEvent

/-- The loop of `extractVideo`: check `frameCount < totalFrames`, then
cancellation, then grab; append frames to the selected writers.
Returns ((left, right, side-by-side) frame lists, frame count,
cancelled). -/
def videoLoop (ops : EngOps) (writeLeft writeRight writeSbs : Bool)
    (total : ℕ) :
    List VideoEvent → ℕ → List Image × List Image × List Image →
    (List Image × List Image × List Image) × ℕ × Bool
  | [], frameCount, acc => (acc, frameCount, false)
  | e :: rest, frameCount, acc =>
      if ¬ frameCount < total then (acc, frameCount, false)
      else if e.cancelSeen then (acc, frameCount, true)
      else if ¬ e.grabOk then (acc, frameCount, false)
      else
        let acc1 :=
          (if writeLeft then acc.1 ++ [e.left] else acc.1,
           if writeRight then acc.2.1 ++ [e.right] else acc.2.1,
           if writeSbs then acc.2.2 ++ [ops.hconcat e.left e.right] else acc.2.2)
        videoLoop ops writeLeft writeRight writeSbs total rest
          (frameCount + 1) acc1

/-- `extractVideo`: in-progress guard, open, output directory, writer
setup per camera mode, loop. -/
def extractVideo (ops : EngOps) (s : EngineState)
    (cfg : VideoExtractionConfig) (w : VideoWorld) :
    EngineState × ExtractionResult × (List Image × List Image × List Image) :=
  if s.isRunning then (s, .mkFailure alreadyRunningMsg, ([], [], []))
  else
    let s0 := { s with isRunning := true, cancelRequested := false }
    if ¬ w.openOk then
      ({ s0 with isRunning := false }, .mkFailure "Failed to open SVO file",
        ([], [], []))
    else if w.extractionPath = "" then
      ({ s0 with isRunning := false },
        .mkFailure "Failed to create extraction directory", ([], [], []))
    else
      let writeLeft := cfg.cameraMode = "left" ∨ cfg.cameraMode = "both_separate"
      let writeRight := cfg.cameraMode = "right" ∨ cfg.cameraMode = "both_separate"
      let writeSbs := cfg.cameraMode = "side_by_side"
      if writeLeft ∧ ¬ w.leftWriterOk then
        ({ s0 with isRunning := false },
          .mkFailure "Failed to create left video writer", ([], [], []))
      else if writeRight ∧ ¬ w.rightWriterOk then
        ({ s0 with isRunning := false },
          .mkFailure "Failed to create right video writer", ([], [], []))
      else if writeSbs ∧ ¬ w.sbsWriterOk then
        ({ s0 with isRunning := false },
          .mkFailure "Failed to create side-by-side video writer", ([], [], []))
      else
        let r := videoLoop ops writeLeft writeRight writeSbs w.totalFrames
          w.events 0 ([], [], [])
        if r.2.2 then
          ({ s0 with isRunning := false }, .mkFailure cancelMsg, r.1)
        else
          ({ s0 with isRunning := false },
            .mkSuccess w.extractionPath r.2.1, r.1)

/-! ## Orchestrator lemmas -/

theorem foldl_fsWrite_append (ws : List (String × FileData)) :
    ∀ fs : FS, ∃ ws', ws.foldl (fun a w => fsWrite a w.1 w.2) fs = ws' ++ fs := by
  induction ws with
  | nil => exact fun fs => ⟨[], rfl⟩
  | cons wh wt ih =>
    intro fs
    obtain ⟨ws', hw⟩ := ih (fsWrite fs wh.1 wh.2)
    refine ⟨ws' ++ [(wh.1, wh.2)], ?_⟩
    rw [List.foldl_cons, hw]
    simp [fsWrite]

theorem processFrame_fs_append (ops : EngOps) (cfg : DepthExtractionConfig)
    (path : String) (ex : Bool) (st : LoopState) (fr : FrameInput) :
    ∃ ws, (processFrame ops cfg path ex st fr).fs = ws ++ st.fs := by
  unfold processFrame
  exact foldl_fsWrite_append _ _

theorem depthLoop_fs_append (ops : EngOps) (cfg : DepthExtractionConfig)
    (path : String) (ex : Bool) (fi : ℕ) :
    ∀ (events : List DepthEvent) (st : LoopState),
      ∃ ws, (depthLoop ops cfg path ex fi events st).1.fs = ws ++ st.fs := by
  intro events
  induction events with
  | nil => exact fun st => ⟨[], rfl⟩
  | cons e rest ih =>
    intro st
    rw [depthLoop]
    split
    · exact ⟨[], rfl⟩
    · split
      · exact ⟨[], rfl⟩
      · exact ih st
      · split
        · exact ih _
        · split
          · exact ih _
          · obtain ⟨ws1, h1⟩ := ih { processFrame ops cfg path ex st
              (by assumption) with
                extractedCount := (processFrame ops cfg path ex st
                  (by assumption)).extractedCount + 1
                frameCount := (processFrame ops cfg path ex st
                  (by assumption)).frameCount + 1 }
            obtain ⟨ws2, h2⟩ := processFrame_fs_append ops cfg path ex st
              (by assumption)
            exact ⟨ws1 ++ ws2, by rw [h1]; dsimp only; rw [h2, List.append_assoc]⟩

/-! ## C9: single-run guard -/

/-- Claim C9: while a run is in progress, a second call to any of the
three extraction entry points fails immediately with the distinct
already-in-progress message and changes nothing. -/
theorem second_call_fails_immediately (ops : EngOps) (s : EngineState)
    (fs0 : FS) (fcfg : FrameExtractionConfig) (fw : FramesWorld)
    (vcfg : VideoExtractionConfig) (vw : VideoWorld)
    (dcfg : DepthExtractionConfig) (dw : DepthWorld)
    (h : s.isRunning = true) :
    extractFrames s fs0 fcfg fw
        = (s, fs0, ExtractionResult.mkFailure alreadyRunningMsg) ∧
    extractVideo ops s vcfg vw
        = (s, ExtractionResult.mkFailure alreadyRunningMsg, ([], [], [])) ∧
    extractDepth ops s fs0 dcfg dw
        = ⟨s, fs0, ExtractionResult.mkFailure alreadyRunningMsg, none, 0,
            false, false, []⟩ := by
  refine ⟨?_, ?_, ?_⟩ <;> · first
    | (unfold extractFrames; rw [if_pos h])
    | (unfold extractVideo; rw [if_pos h])
    | (unfold extractDepth; rw [if_pos h])

/-- Witness for C9 on a concrete busy engine. -/
theorem second_call_fails_immediately_witness :
    (⟨true, false, [], [], 0, [], [], "out"⟩ : EngineState).isRunning = true ∧
    extractFrames ⟨true, false, [], [], 0, [], [], "out"⟩ []
        ⟨"a.svo", "o", 1, "left", "png"⟩ ⟨true, "out", 30, 0, []⟩
      = (⟨true, false, [], [], 0, [], [], "out"⟩, [],
          ExtractionResult.mkFailure alreadyRunningMsg) :=
  ⟨rfl,
   (second_call_fails_immediately idEngOps
     ⟨true, false, [], [], 0, [], [], "out"⟩ []
     ⟨"a.svo", "o", 1, "left", "png"⟩ ⟨true, "out", 30, 0, []⟩
     ⟨"a.svo", "o", "left", "h264", 0, 100⟩ ⟨true, "out", 30, 0, true, true, true, []⟩
     defaultDepthCfg ⟨true, "", "out", true, 30, true, []⟩ rfl).1⟩

/-! ## C6: zero extracted frames is reported as failure -/

/-- Claim C6: when the frame loop of `extractDepth` ends on end-of-
stream with zero extracted frames, the result is a failure whose message
is the diagnostic hint followed by the source path; and `extractDepth`
never reports success with `framesProcessed = 0`. -/
theorem extractDepth_zero_frames_is_failure (ops : EngOps)
    (s : EngineState) (fs0 : FS) (cfg : DepthExtractionConfig)
    (w : DepthWorld) :
    ((extractDepth ops s fs0 cfg w).exit = some ExitKind.eofReached →
      (extractDepth ops s fs0 cfg w).extracted = 0 →
      (extractDepth ops s fs0 cfg w).result.success = false ∧
      (extractDepth ops s fs0 cfg w).result.errorMessage
        = noFramesPre ++ cfg.svoFilePath) ∧
    ((extractDepth ops s fs0 cfg w).result.success = true →
      (extractDepth ops s fs0 cfg w).result.framesProcessed ≠ 0) := by
  unfold extractDepth
  split
  · exact ⟨fun hexit => by simp at hexit,
      fun hs => by simp [ExtractionResult.mkFailure] at hs⟩
  · dsimp only
    split
    · exact ⟨fun hexit => by simp at hexit,
        fun hs => by simp [ExtractionResult.mkFailure] at hs⟩
    · split
      · exact ⟨fun hexit => by simp at hexit,
          fun hs => by simp [ExtractionResult.mkFailure] at hs⟩
      · split
        · exact ⟨fun hexit => by simp at hexit,
            fun hs => by simp [ExtractionResult.mkFailure] at hs⟩
        · split
          · exact ⟨fun hexit => by simp at hexit,
              fun hs => by simp [ExtractionResult.mkFailure] at hs⟩
          · exact ⟨fun hexit => by simp at hexit,
              fun hs => by simp [ExtractionResult.mkFailure] at hs⟩
          · split
            · exact ⟨fun _ _ => ⟨rfl, rfl⟩,
                fun hs => by simp [ExtractionResult.mkFailure] at hs⟩
            · rename_i hnz
              exact ⟨fun _ hzero => absurd hzero hnz,
                fun _ => by simpa [ExtractionResult.mkSuccess] using hnz⟩

set_option maxRecDepth 100000 in
/-- Witness for C6: a source that signals end-of-stream on the very
first grab. -/
theorem extractDepth_zero_frames_is_failure_witness :
    ((extractDepth idEngOps ⟨false, false, [], [], 0, [], [], ""⟩ []
        { defaultDepthCfg with svoFilePath := "missing.svo" }
        ⟨true, "", "out", true, 30, true,
          [⟨false, GrabOutcome.eof⟩]⟩).exit = some ExitKind.eofReached) ∧
    ((extractDepth idEngOps ⟨false, false, [], [], 0, [], [], ""⟩ []
        { defaultDepthCfg with svoFilePath := "missing.svo" }
        ⟨true, "", "out", true, 30, true,
          [⟨false, GrabOutcome.eof⟩]⟩).extracted = 0) ∧
    ((extractDepth idEngOps ⟨false, false, [], [], 0, [], [], ""⟩ []
        { defaultDepthCfg with svoFilePath := "missing.svo" }
        ⟨true, "", "out", true, 30, true,
          [⟨false, GrabOutcome.eof⟩]⟩).result.success = false ∧
      (extractDepth idEngOps ⟨false, false, [], [], 0, [], [], ""⟩ []
        { defaultDepthCfg with svoFilePath := "missing.svo" }
        ⟨true, "", "out", true, 30, true,
          [⟨false, GrabOutcome.eof⟩]⟩).result.errorMessage
        = noFramesPre ++ "missing.svo") :=
  ⟨by with_unfolding_all rfl, by with_unfolding_all rfl,
   (extractDepth_zero_frames_is_failure idEngOps
      ⟨false, false, [], [], 0, [], [], ""⟩ []
      { defaultDepthCfg with svoFilePath := "missing.svo" }
      ⟨true, "", "out", true, 30, true, [⟨false, GrabOutcome.eof⟩]⟩).1
     (by with_unfolding_all rfl) (by with_unfolding_all rfl)⟩

/-! ## C8: cancellation -/

theorem cancelMsg_ne_openFail (e : String) : cancelMsg ≠ openFailPre ++ e := by
  intro h
  have hlen := congrArg String.length h
  rw [String.length_append] at hlen
  have h1 : cancelMsg.length = 28 := by decide
  have h2 : 40 ≤ openFailPre.length := by decide
  omega

theorem cancelMsg_ne_noFrames (pth : String) : cancelMsg ≠ noFramesPre ++ pth := by
  intro h
  have hlen := congrArg String.length h
  rw [String.length_append] at hlen
  have h1 : cancelMsg.length = 28 := by decide
  have h2 : 100 ≤ noFramesPre.length := by decide
  omega

/-- Claim C8: when the once-per-frame cancellation check fires, the
loop stops with no further frame processed, the video writer and camera
are released, the result is the cancellation failure whose message is
distinct from every other message `extractDepth` produces, and the
filesystem only ever grew (partial output kept, no rollback). -/
theorem extractDepth_cancelled (ops : EngOps) (s : EngineState)
    (fs0 : FS) (cfg : DepthExtractionConfig) (w : DepthWorld)
    (hexit : (extractDepth ops s fs0 cfg w).exit = some ExitKind.cancelled) :
    (extractDepth ops s fs0 cfg w).result
        = ExtractionResult.mkFailure cancelMsg ∧
    (extractDepth ops s fs0 cfg w).writerReleased = true ∧
    (extractDepth ops s fs0 cfg w).cameraClosed = true ∧
    (∃ ws, (extractDepth ops s fs0 cfg w).fs = ws ++ fs0) ∧
    cancelMsg ≠ alreadyRunningMsg ∧
    cancelMsg ≠ dirFailMsg ∧
    cancelMsg ≠ writerFailMsg ∧
    (∀ e, cancelMsg ≠ openFailPre ++ e) ∧
    (∀ pth, cancelMsg ≠ noFramesPre ++ pth) := by
  rcases hE : extractDepth ops s fs0 cfg w with ⟨eng, fsx, res, exit, extr, wr, cc, vf⟩
  rw [hE] at hexit
  dsimp only at hexit ⊢
  unfold extractDepth at hE
  split at hE
  · cases hE; simp at hexit
  · dsimp only at hE
    split at hE
    · cases hE; simp at hexit
    · split at hE
      · cases hE; simp at hexit
      · split at hE
        · cases hE; simp at hexit
        · split at hE
          · cases hE
            refine ⟨rfl, rfl, rfl, ?_, by decide, by decide, by decide,
              cancelMsg_ne_openFail, cancelMsg_ne_noFrames⟩
            exact depthLoop_fs_append ops cfg w.extractionPath w.exrWriteOk
              (max 1 (roundHalfAway (w.sourceFps / cfg.outputFps)).toNat)
              w.events ⟨fs0, _, 0, 0, none, none, true, []⟩
          · cases hE; simp at hexit
          · split at hE <;> (cases hE; simp at hexit)

/-- Witness for C8: cancellation observed at the first per-frame
check. -/
theorem extractDepth_cancelled_witness :
    ((extractDepth idEngOps ⟨false, false, [], [], 0, [], [], ""⟩ []
        defaultDepthCfg
        ⟨true, "", "out", true, 30, true,
          [⟨true, GrabOutcome.eof⟩]⟩).exit = some ExitKind.cancelled) ∧
    (extractDepth idEngOps ⟨false, false, [], [], 0, [], [], ""⟩ []
        defaultDepthCfg
        ⟨true, "", "out", true, 30, true,
          [⟨true, GrabOutcome.eof⟩]⟩).result
      = ExtractionResult.mkFailure cancelMsg :=
  ⟨by with_unfolding_all rfl,
   (extractDepth_cancelled idEngOps ⟨false, false, [], [], 0, [], [], ""⟩ []
      defaultDepthCfg
      ⟨true, "", "out", true, 30, true, [⟨true, GrabOutcome.eof⟩]⟩
      (by with_unfolding_all rfl)).1⟩

/-! ## C7: frame effects of a re-process -/

theorem reprocessFinish_effects (s : EngineState) (fs : FS) (out : Image)
    (i : ℤ) (ov : Bool) :
    (reprocessFinish s fs out i ov).1.storedFrameIndices = s.storedFrameIndices ∧
    (reprocessFinish s fs out i ov).1.storedPreviews.length = s.storedPreviews.length ∧
    (∀ j : ℕ, (j : ℤ) ≠ i →
      (reprocessFinish s fs out i ov).1.storedPreviews[j]? = s.storedPreviews[j]?) ∧
    (∀ p, p ≠ heatmapPngPath s.lastExtractionPath i →
      List.lookup p (reprocessFinish s fs out i ov).2.1 = List.lookup p fs) ∧
    (reprocessFinish s fs out i ov).1.isRunning = s.isRunning ∧
    (reprocessFinish s fs out i ov).1.cancelRequested = s.cancelRequested ∧
    (reprocessFinish s fs out i ov).1.lastExtractionPath = s.lastExtractionPath ∧
    (reprocessFinish s fs out i ov).1.latestRawDepth = s.latestRawDepth := by
  unfold reprocessFinish
  refine ⟨rfl, ?_, ?_, ?_, rfl, rfl, rfl, rfl⟩
  · dsimp only
    split
    · exact List.length_set _ _ _
    · rfl
  · intro j hj
    dsimp only
    split
    · rename_i hrange
      refine List.getElem?_set_ne ?_
      intro hij
      apply hj
      rw [← hij, Int.toNat_of_nonneg hrange.1]
    · rfl
  · intro p hp
    dsimp only
    split
    · simp [fsWrite, List.lookup, beq_eq_false_iff_ne.mpr hp]
    · rfl

/-- Claim C7: a re-process touches at most the stored entry at the
requested index, the latest preview, the preview version, and the saved
heatmap file of that index; every other stored entry, the frame-index
mapping, every other file, and the remaining engine fields are
untouched — and when it fails before producing an image (camera open or
grab failure on the recompute path) nothing at all changes. -/
theorem reprocess_frame_effects (ops : EngOps) (s : EngineState) (fs : FS)
    (cfg : DepthExtractionConfig) (w : ReproWorld) (i : ℤ) (ov : Bool) :
    (reprocessDepthFrame ops s fs cfg w i ov).1.storedFrameIndices
        = s.storedFrameIndices ∧
    (reprocessDepthFrame ops s fs cfg w i ov).1.storedPreviews.length
        = s.storedPreviews.length ∧
    (∀ j : ℕ, (j : ℤ) ≠ i →
      (reprocessDepthFrame ops s fs cfg w i ov).1.storedPreviews[j]?
        = s.storedPreviews[j]?) ∧
    (∀ p, p ≠ heatmapPngPath s.lastExtractionPath i →
      List.lookup p (reprocessDepthFrame ops s fs cfg w i ov).2.1
        = List.lookup p fs) ∧
    (reprocessDepthFrame ops s fs cfg w i ov).1.isRunning = s.isRunning ∧
    (reprocessDepthFrame ops s fs cfg w i ov).1.cancelRequested
        = s.cancelRequested ∧
    (reprocessDepthFrame ops s fs cfg w i ov).1.lastExtractionPath
        = s.lastExtractionPath ∧
    (reprocessDepthFrame ops s fs cfg w i ov).1.latestRawDepth
        = s.latestRawDepth ∧
    (exrDepthOf fs s.lastExtractionPath i = none → ¬ w.openOk →
      reprocessDepthFrame ops s fs cfg w i ov = (s, fs, false)) := by
  unfold reprocessDepthFrame
  dsimp only
  split
  · rename_i heq
    split
    · exact ⟨rfl, rfl, fun j _ => rfl, fun p _ => rfl, rfl, rfl, rfl, rfl,
        fun _ _ => rfl⟩
    · rename_i hopen
      split
      · exact ⟨rfl, rfl, fun j _ => rfl, fun p _ => rfl, rfl, rfl, rfl, rfl,
          fun _ hno => absurd hno (by simpa using hopen)⟩
      · rename_i hopen2
        obtain ⟨e1, e2, e3, e4, e5, e6, e7, e8⟩ := reprocessFinish_effects s fs
          (match (if cfg.overlayOnRgb then w.left else none) with
            | some l => ops.addW ((cfg.overlayStrength : ℚ) / 100)
                (applyDepthHeatmap ops.pix w.depth cfg.minDepth cfg.maxDepth
                  cfg.autoContrast (if w.conf = [] then none else some w.conf)
                  cfg.confidenceThreshold cfg.logScale cfg.useEdgeBoost
                  cfg.edgeBoostFactor cfg.useClahe cfg.colorMap).1 l
            | none => (applyDepthHeatmap ops.pix w.depth cfg.minDepth
                cfg.maxDepth cfg.autoContrast
                (if w.conf = [] then none else some w.conf)
                cfg.confidenceThreshold cfg.logScale cfg.useEdgeBoost
                cfg.edgeBoostFactor cfg.useClahe cfg.colorMap).1) i ov
        exact ⟨e1, e2, e3, e4, e5, e6, e7, e8,
          fun _ hno => absurd hno (by simpa using hopen)⟩
  · rename_i depthFloat heq
    obtain ⟨e1, e2, e3, e4, e5, e6, e7, e8⟩ := reprocessFinish_effects s fs
      (match (if cfg.overlayOnRgb then
          match List.lookup (leftPngPath s.lastExtractionPath i) fs with
          | some (.img im) => some im
          | _ => if w.openOk2 ∧ w.grabOk2 then w.left2 else none
        else none) with
        | some l => ops.addW ((cfg.overlayStrength : ℚ) / 100)
            (applyDepthHeatmap ops.pix depthFloat cfg.minDepth cfg.maxDepth
              cfg.autoContrast none cfg.confidenceThreshold cfg.logScale
              cfg.useEdgeBoost cfg.edgeBoostFactor cfg.useClahe
              cfg.colorMap).1 l
        | none => (applyDepthHeatmap ops.pix depthFloat cfg.minDepth
            cfg.maxDepth cfg.autoContrast none cfg.confidenceThreshold
            cfg.logScale cfg.useEdgeBoost cfg.edgeBoostFactor cfg.useClahe
            cfg.colorMap).1) i ov
    exact ⟨e1, e2, e3, e4, e5, e6, e7, e8,
      fun hnone _ => absurd (heq ▸ hnone) (by simp)⟩

/-- Witness for C7 at a concrete early-failure input: the stored entry
at index 1 is untouched by a failed re-process of index 0. -/
theorem reprocess_frame_effects_witness :
    ((1 : ℕ) : ℤ) ≠ (0 : ℤ) ∧
    (reprocessDepthFrame idEngOps
        ⟨false, false, [], [], 0, [[(1, 2, 3)], [(4, 5, 6)]], [0, 1], ""⟩ []
        defaultDepthCfg ⟨false, false, [], [], none, false, false, none⟩ 0
        true).1.storedPreviews[1]?
      = (⟨false, false, [], [], 0, [[(1, 2, 3)], [(4, 5, 6)]], [0, 1], ""⟩
          : EngineState).storedPreviews[1]? :=
  ⟨by decide,
   (reprocess_frame_effects idEngOps
      ⟨false, false, [], [], 0, [[(1, 2, 3)], [(4, 5, 6)]], [0, 1], ""⟩ []
      defaultDepthCfg ⟨false, false, [], [], none, false, false, none⟩ 0
      true).2.2.1 1 (by decide)⟩

/-! ## C10: the confidence-map neighbour probe -/

theorem findSome?_first {α β : Type} (f : α → Option β) :
    ∀ (l : List α) (k : ℕ) (a : α) (b : β),
      l[k]? = some a →
      (∀ m a2, m < k → l[m]? = some a2 → f a2 = none) →
      f a = some b →
      l.findSome? f = some b := by
  intro l
  induction l with
  | nil => intro k a b hk _ _; simp at hk
  | cons x xs ih =>
    intro k a b hk hprev hfa
    cases k with
    | zero =>
      simp at hk
      subst hk
      rw [List.findSome?_cons, hfa]
    | succ n =>
      have hx : f x = none := hprev 0 x (Nat.succ_pos n) (by simp)
      rw [List.findSome?_cons, hx]
      exact ih n a b (by simpa using hk)
        (fun m a2 hm hm2 => hprev (m + 1) a2 (by omega) (by simpa using hm2))
        hfa

theorem findSome?_guarded {β : Type} (i : ℤ) (h : ℤ → Option β) :
    ∀ l : List ℤ,
      (l.findSome? (fun d => if i + d < 0 then none else h (i + d)))
        = ((l.map (fun d => i + d)).filter (fun a => decide (0 ≤ a))).findSome? h := by
  intro l
  induction l with
  | nil => rfl
  | cons d tl ih =>
    rw [List.findSome?_cons]
    by_cases hd : i + d < 0
    · have : decide (0 ≤ i + d) = false := by simpa using hd
      simp only [List.map_cons, List.filter_cons, this, if_pos hd]
      simpa using ih
    · have : decide (0 ≤ i + d) = true := by simpa using not_lt.mp hd
      simp only [List.map_cons, List.filter_cons, this, if_neg hd, if_true]
      rw [List.findSome?_cons]
      cases h (i + d) with
      | none => simpa using ih
      | some b => rfl

/-- The neighbour indices `getConfidenceForStored` probes after the
exact file fails: `i-2 .. i+2` in order, negative indices skipped. -/
def confProbeCandidates (i : ℤ) : List ℤ :=
  (([-2, -1, 0, 1, 2] : List ℤ).map (fun d => i + d)).filter
    (fun a => decide (0 ≤ a))

/-- Claim C10: when `conf_<i>.png` itself does not load,
`getConfidenceForStored` probes `i-2 .. i+2` in order and returns the
first readable candidate file's contents (converted to 8-bit when
wider) — for some inputs the confidence map of a different frame than
requested — and it returns false exactly when no candidate is
readable. -/
theorem getConfidenceForStored_probes (ops : EngOps) (s : EngineState)
    (fs : FS) (i : ℤ)
    (hpath : ¬ s.lastExtractionPath = "")
    (hexact : imreadConfUnchanged fs (confPngPath s.lastExtractionPath i)
      = none) :
    (∀ (k : ℕ) (alt : ℤ) (b : Bool) (d : List ℚ),
      (confProbeCandidates i)[k]? = some alt →
      (∀ (m : ℕ) (alt2 : ℤ), m < k → (confProbeCandidates i)[m]? = some alt2 →
        imreadConfUnchanged fs (confPngPath s.lastExtractionPath alt2) = none) →
      imreadConfUnchanged fs (confPngPath s.lastExtractionPath alt)
        = some (b, d) →
      getConfidenceForStored ops s fs i
        = some (if b then d else ops.to8u d)) ∧
    (getConfidenceForStored ops s fs i = none ↔
      ∀ alt ∈ confProbeCandidates i,
        imreadConfUnchanged fs (confPngPath s.lastExtractionPath alt)
          = none) := by
  have hrw : getConfidenceForStored ops s fs i
      = match (confProbeCandidates i).findSome?
          (fun alt => imreadConfUnchanged fs
            (confPngPath s.lastExtractionPath alt)) with
        | none => none
        | some bd => some (if bd.1 then bd.2 else ops.to8u bd.2) := by
    unfold getConfidenceForStored
    rw [if_neg hpath, hexact]
    dsimp only
    rw [findSome?_guarded i
      (fun alt => imreadConfUnchanged fs (confPngPath s.lastExtractionPath alt))]
    rfl
  constructor
  · intro k alt b d hk hprev hread
    rw [hrw, findSome?_first _ (confProbeCandidates i) k alt (b, d) hk hprev hread]
  · rw [hrw]
    constructor
    · intro hres
      rcases hfs : (confProbeCandidates i).findSome?
          (fun alt => imreadConfUnchanged fs
            (confPngPath s.lastExtractionPath alt)) with _ | bd
      · exact List.findSome?_eq_none_iff.mp hfs
      · rw [hfs] at hres; simp at hres
    · intro hall
      rw [List.findSome?_eq_none_iff.mpr hall]

/-- Witness for C10: requesting index 2 with only `conf_000000.png` on
disk returns the confidence map of frame 0 — a different frame than
requested. -/
theorem getConfidenceForStored_probes_witness :
    ¬ (⟨false, false, [], [], 0, [], [], "out"⟩ : EngineState).lastExtractionPath = "" ∧
    imreadConfUnchanged [(confPngPath "out" 0, FileData.confImg true [7])]
      (confPngPath "out" 2) = none ∧
    getConfidenceForStored idEngOps ⟨false, false, [], [], 0, [], [], "out"⟩
      [(confPngPath "out" 0, FileData.confImg true [7])] 2 = some [7] :=
  ⟨by decide, by decide,
   (getConfidenceForStored_probes idEngOps
      ⟨false, false, [], [], 0, [], [], "out"⟩
      [(confPngPath "out" 0, FileData.confImg true [7])] 2
      (by decide) (by decide)).1 0 0 true [7] (by decide)
     (fun m alt2 hm _ => absurd hm (Nat.not_lt_zero m)) (by decide)⟩

end ZedSvo
